import Mathlib

/-!
# Verification of the TextArena orchestration core and game sessions

Shallow embedding, in Lean, of the parts of the TextArena repository that the
verified claims are about:

* `ASCIIArt`   — `textarena/ends/ASCIIArtGame/env.py`
* `WordLadder` — `textarena/envs/single_player/WordLadder/env.py`
* `Bomberman`  — `textarena/envs/two_player/Bomberman/env.py`
* `PMR`        — `textarena/envs/two_player/PixelMazeRunner/env.py`
* `Tak`        — `textarena/envs/two_player/Tak/env.py`
* `Core`       — the shared `ta.State` orchestration core.  Its source file is
  not part of the repository snapshot (only its callers are), so the few pieces
  that claims need (turn-advance semantics, reward semantics of `set_winners`)
  are modelled from the specification and marked as such.

Conventions used throughout the embedding:

* Python `dict`s keyed by player id are embedded as association lists with
  Python's update-in-place-by-key semantics (`dictInsert` below), preserving
  insertion order; `{0: x, 1: y}` literals are embedded as fields or pairs.
* Python strings are Lean `String`s; `str.lower()` is `mapLower`,
  `str.strip()` is `pyStrip` (the actions involved are ASCII).
* Grid cells hold symbolic tokens (inductive types) in place of the two-byte
  strings of the `symbols` dictionaries; the code only ever compares these
  strings for equality, so the translation is faithful.
* Fallible operations (Python expressions that can raise) are embedded with
  `Option`: a `none` result marks an exception escaping the translated code.
* Observation routing: every `add_observation(from_id, to_id, ...)` call is
  recorded as the `(from_id, to_id)` pair appended to an `obs` log.  The
  message texts (long prompt strings) carry no information any claim depends
  on and are elided; delivery endpoints, which the claims do mention, are kept.
* CPython floats in `_calculate_score` are embedded as exact rationals with
  `int()` as `Int.floor` (all values are nonnegative); the bound proved about
  the score is insensitive to one-ulp rounding differences.
-/

/-- Python-dict insertion on an association list: if the key is present its
value is replaced in place (keeping insertion order), otherwise the binding is
appended — exactly `d[k] = v` on a `dict`. -/
def dictInsert {α β : Type} [DecidableEq α] : List (α × β) → α → β → List (α × β)
  | [], k, v => [(k, v)]
  | (k', v') :: rest, k, v =>
    if k' = k then (k, v) :: rest else (k', v') :: dictInsert rest k v

/-- Python-dict lookup `d.get(k)` on an association list. -/
def dictLookup {α β : Type} [DecidableEq α] : List (α × β) → α → Option β
  | [], _ => none
  | (k', v') :: rest, k => if k' = k then some v' else dictLookup rest k

/-- Python `s.lower()` for ASCII strings (character-wise `Char.toLower`). -/
def mapLower (s : String) : String := ⟨s.data.map Char.toLower⟩

/-- Python `s.strip()`: remove leading and trailing whitespace (the action strings
involved are ASCII, where Python and Lean whitespace agree). -/
def pyStrip (s : String) : String :=
  ⟨((s.data.dropWhile Char.isWhitespace).reverse.dropWhile Char.isWhitespace).reverse⟩

/-- Keys of an association list (the Python `dict.keys()` view). -/
def dictKeys {α β : Type} (d : List (α × β)) : List α := d.map Prod.fst

theorem mem_dictKeys_dictInsert {α β : Type} [DecidableEq α]
    (d : List (α × β)) (k : α) (v : β) (x : α) :
    x ∈ dictKeys (dictInsert d k v) ↔ x = k ∨ x ∈ dictKeys d := by
  induction d with
  | nil => simp [dictInsert, dictKeys]
  | cons hd tl ih =>
    obtain ⟨k', v'⟩ := hd
    by_cases hk : k' = k
    · subst hk
      simp [dictInsert, dictKeys]
    · simp [dictInsert, hk, dictKeys] at ih ⊢
      tauto

theorem dictInsert_keys_nodup {α β : Type} [DecidableEq α]
    (d : List (α × β)) (k : α) (v : β) (h : (dictKeys d).Nodup) :
    (dictKeys (dictInsert d k v)).Nodup := by
  induction d with
  | nil => simp [dictInsert, dictKeys]
  | cons hd tl ih =>
    obtain ⟨k', v'⟩ := hd
    simp only [dictKeys, List.map_cons, List.nodup_cons] at h
    by_cases hk : k' = k
    · subst hk
      simpa [dictInsert, dictKeys] using h
    · have h1 : k' ∉ dictKeys (dictInsert tl k v) := by
        intro hmem
        rcases (mem_dictKeys_dictInsert tl k v k').mp hmem with h3 | h3
        · exact hk h3
        · exact h.1 h3
      have h2 := ih h.2
      simp [dictInsert, hk, dictKeys] at h1 h2 ⊢
      exact ⟨h1, h2⟩

theorem dictInsert_length_le {α β : Type} [DecidableEq α]
    (d : List (α × β)) (k : α) (v : β) :
    (dictInsert d k v).length ≤ d.length + 1 := by
  induction d with
  | nil => simp [dictInsert]
  | cons hd tl ih =>
    obtain ⟨k', v'⟩ := hd
    by_cases hk : k' = k
    · simp [dictInsert, hk]
    · simp [dictInsert, hk]
      omega

theorem dictLookup_dictInsert_self {α β : Type} [DecidableEq α]
    (d : List (α × β)) (k : α) (v : β) :
    dictLookup (dictInsert d k v) k = some v := by
  induction d with
  | nil => simp [dictInsert, dictLookup]
  | cons hd tl ih =>
    obtain ⟨k', v'⟩ := hd
    by_cases hk : k' = k
    · simp [dictInsert, hk, dictLookup]
    · simp [dictInsert, hk, dictLookup, ih]

namespace Core

/-- Modelled from the spec: the terminal outcome record produced by the core's
`set_winners(player_ids, reason)` (§4.5).  The core's source (`ta.State`) is
not part of the repository snapshot; only the winner list and reason string —
the two arguments every game session passes — are modelled. -/
structure Outcome where
  winners : List Nat
  reason : String
deriving DecidableEq, Repr

/-- Modelled from the spec: the Episode Clock state (§3, §4.1) of the missing
`ta.State` core: current player, turn index, optional turn limit and the
truncation flag. -/
structure Clock where
  numPlayers : Nat
  currentPlayer : Nat
  turnIndex : Nat
  maxTurns : Option Nat
  truncated : Bool
deriving DecidableEq, Repr

/-- Modelled from the spec: `advance(advance_turn)` of the Episode Clock
(§4.1): when `advance_turn` is true it increments `turn_index`, rotates
`current_player_id` modulo the player count and checks the turn limit; when it
is false "the same player retains the turn" and nothing changes. -/
def clockAdvance (c : Clock) (advanceTurn : Bool) : Clock :=
  if advanceTurn then
    let t := c.turnIndex + 1
    { c with
      turnIndex := t
      currentPlayer := (c.currentPlayer + 1) % c.numPlayers
      truncated :=
        match c.maxTurns with
        | some m => decide (m ≤ t)
        | none => c.truncated }
  else c

/-- Modelled from the spec: the reward vector derived from a terminal winner
set (§4.5, §4.3): +1 for each winner and −1 for everyone else in a zero-sum
game, except that a winner set equal to the full player set is a draw /
cooperative outcome, for which the turn-limit default is reward 0 for all
(§4.5 `check_turn_limit`). -/
def specRewards (numPlayers : Nat) (winners : List Nat) : Nat → Int :=
  fun p =>
    if winners.length = numPlayers then 0
    else if p ∈ winners then 1 else -1

end Core

namespace ASCIIArt

/-!
Embedding of `textarena/ends/ASCIIArtGame/env.py` (class `ASCIIArtGameEnv`).
-/

/-- The default term database of `_load_term_database` (difficulty 1–5). -/
def defaultTerms : List (String × Nat) :=
  [("cat", 1), ("dog", 1), ("house", 1), ("tree", 1), ("car", 2), ("boat", 2),
   ("sun", 1), ("moon", 1),
   ("bicycle", 3), ("airplane", 3), ("robot", 3), ("castle", 3), ("train", 3),
   ("elephant", 4), ("giraffe", 4), ("skyscraper", 4), ("helicopter", 4),
   ("submarine", 5), ("dinosaur", 5), ("spacecraft", 5)]

/-- Lookup `self.term_database.get(term, default)` — dictionary lookup with default. -/
def dbGet (db : List (String × Nat)) (term : String) (default : Nat) : Nat :=
  (dictLookup db term).getD default

/-- The three `symbol_sets` of the environment (basic / medium / complex).
The backquote and single-quote members of the complex set are written with
`Char.ofNat` (codepoints 96 and 39). -/
def symbolSets : List (List Char) :=
  [['-', '|', '/', '\\', '+', 'o', '.', '*'],
   ['-', '|', '/', '\\', '+', 'o', '.', '*', '^', 'v', '<', '>', '(', ')',
    '[', ']'],
   ['-', '|', '/', '\\', '+', 'o', '.', '*', '^', 'v', '<', '>', '(', ')',
    '[', ']', '#', '=', '_', '~', ':', ';', Char.ofNat 34, Char.ofNat 96,
    Char.ofNat 39, ',']]

/-- Source `ASCIIArtGameEnv._validate_drawing`: every character of the drawing must
belong to the allowed symbol set extended with the whitespace characters
space, newline and tab. -/
def validate_drawing (drawing : String) (allowedSymbols : List Char) : Bool :=
  let allowedWithWhitespace := allowedSymbols ++ [' ', '\n', '\t']
  drawing.toList.all (fun c => decide (c ∈ allowedWithWhitespace))

/-- Source `ASCIIArtGameEnv._calculate_score`.  CPython float arithmetic on the
multiplier is embedded as exact rational arithmetic, `int()` as `Int.floor`
(all intermediate values are nonnegative, where truncation and floor agree). -/
def calculate_score (db : List (String × Nat)) (term : String)
    (guessesUsed : Int) (drawing : String) : Int :=
  let difficulty : Nat := dbGet db term 3
  let basePoints : ℚ := (difficulty : ℚ) * 10
  let guessMultiplier : ℚ :=
    if guessesUsed = 1 then 3 / 2 else if guessesUsed = 2 then 6 / 5 else 1
  let uniqueSymbolsUsed : Nat :=
    ((drawing.toList.filter
      (fun c => decide (c ≠ ' ' ∧ c ≠ '\n' ∧ c ≠ '\t'))).dedup).length
  let efficiencyBonus : Int := if uniqueSymbolsUsed ≤ 5 then 5 else 0
  Int.floor (basePoints * guessMultiplier) + efficiencyBonus

end ASCIIArt

namespace ASCIIArt

/-- One entry of `game_state["round_results"]`. -/
structure RoundResult where
  round : Nat
  artist : Nat
  term : String
  guessesUsed : Int
  score : Int
deriving DecidableEq, Repr

/-- Environment configuration (`__init__` arguments plus the loaded term
database). -/
structure Config where
  maxGuessesPerRound : Int
  roundsPerGame : Nat
  termDatabase : List (String × Nat)

/-- The default configuration (`max_guesses_per_round=3`, `rounds_per_game=3`,
default term database). -/
def defaultConfig : Config :=
  { maxGuessesPerRound := 3, roundsPerGame := 3, termDatabase := defaultTerms }

/-- The `game_state` dictionary of the ASCII art game, plus the `(from, to)`
log of `add_observation` calls and the terminal outcome recorded by
`set_winners`, plus a cursor into the oracle stream standing for the ambient
`random.choice` calls. -/
structure GState where
  terms : List (String × String)
  currentRound : Nat
  currentArtist : Nat
  currentGuesser : Nat
  sharedScore : Int
  currentSymbols : List Char
  guessesRemaining : Int
  currentDrawing : Option String
  roundResults : List RoundResult
  outcome : Option Core.Outcome
  obs : List (Int × Int)
  rngIdx : Nat

/-- Lookup `game_state["terms"][round][player]`: the term the given player draws in
the given round.  Rounds are generated up to `rounds_per_game`; the lookup is
total here (out-of-range rounds, unreachable in play, give `("", "")`). -/
def termOf (s : GState) (round : Nat) (player : Nat) : String :=
  let pair := (s.terms.get? round).getD ("", "")
  if player = 0 then pair.1 else pair.2

/-- Source `ASCIIArtGameEnv._advance_round` / `_end_game`.  The oracle `pick` stands
for `random.choice(self.symbol_sets)`; `_end_game` only aggregates local
totals and calls `set_winners([0, 1], ...)` — it does not write
`shared_score`. -/
def advance_round (cfg : Config) (pick : Nat → Fin 3) (s : GState) : GState :=
  if cfg.roundsPerGame ≤ s.currentRound + 1 then
    { s with
      outcome := some
        { winners := [0, 1]
          reason := "Game complete with shared score of " ++
            toString (s.sharedScore +
              (if (s.roundResults.filter (fun r => 0 < r.score)).length =
                  cfg.roundsPerGame then 20 else 0)) ++ " points" }
      obs := s.obs ++ [(-1, -1)] }
  else
    { s with
      currentRound := s.currentRound + 1
      currentArtist := 1 - s.currentArtist
      currentGuesser := 1 - s.currentGuesser
      guessesRemaining := cfg.maxGuessesPerRound
      currentSymbols := (symbolSets.get? (pick s.rngIdx)).getD []
      rngIdx := s.rngIdx + 1
      currentDrawing := none
      obs := s.obs ++ [(-1, ((1 - s.currentArtist : Nat) : Int)),
                       (-1, ((1 - s.currentGuesser : Nat) : Int))] }

/-- Source `ASCIIArtGameEnv.step`.  The result pairs the updated state with the
`advance_turn` flag the environment passes to `state.step` (`false` on the two
RETRY paths, `true` otherwise); a `none` result marks the one raising path
(`set(None)` inside `_calculate_score` when a correct guess arrives while
`current_drawing` is still `None`, unreachable in ordinary play). -/
def step (cfg : Config) (pick : Nat → Fin 3) (currentPlayer : Nat)
    (action : String) (s : GState) : Option (GState × Bool) :=
  let s := { s with obs := s.obs ++ [((currentPlayer : Int), -1)] }
  if currentPlayer = s.currentArtist then
    if ¬ validate_drawing action s.currentSymbols then
      some ({ s with obs := s.obs ++ [(-1, (currentPlayer : Int))] }, false)
    else
      some ({ s with
              currentDrawing := some action
              obs := s.obs ++ [(-1, (s.currentGuesser : Int))] }, true)
  else
    let currentRound := s.currentRound
    let currentArtist := s.currentArtist
    let targetTerm := termOf s currentRound currentArtist
    if mapLower action = mapLower targetTerm then
      match s.currentDrawing with
      | none => none
      | some drawing =>
        let guessesUsed := cfg.maxGuessesPerRound - s.guessesRemaining + 1
        let roundScore := calculate_score cfg.termDatabase targetTerm guessesUsed drawing
        let s := { s with
          sharedScore := s.sharedScore + roundScore
          roundResults := s.roundResults ++
            [{ round := currentRound, artist := currentArtist,
               term := targetTerm, guessesUsed := guessesUsed,
               score := roundScore }]
          obs := s.obs ++ [(-1, -1)] }
        some (advance_round cfg pick s, true)
    else
      let s := { s with guessesRemaining := s.guessesRemaining - 1 }
      if s.guessesRemaining ≤ 0 then
        let s := { s with
          roundResults := s.roundResults ++
            [{ round := currentRound, artist := currentArtist,
               term := targetTerm, guessesUsed := cfg.maxGuessesPerRound,
               score := 0 }]
          obs := s.obs ++ [(-1, -1)] }
        some (advance_round cfg pick s, true)
      else
        some ({ s with obs := s.obs ++ [(-1, (currentPlayer : Int))] }, false)

end ASCIIArt

theorem dictLookup_mem {α β : Type} [DecidableEq α] (d : List (α × β)) (k : α)
    (v : β) (h : dictLookup d k = some v) : (k, v) ∈ d := by
  induction d with
  | nil => simp [dictLookup] at h
  | cons hd tl ih =>
    obtain ⟨k', v'⟩ := hd
    by_cases hk : k' = k
    · subst hk
      simp [dictLookup] at h
      simp [h]
    · simp [dictLookup, hk] at h
      simp [ih h]

namespace ASCIIArt

theorem one_le_dbGet_defaultTerms (t : String) : 1 ≤ dbGet defaultTerms t 3 := by
  unfold dbGet
  cases h : dictLookup defaultTerms t with
  | none => simp
  | some v =>
    have hmem := dictLookup_mem defaultTerms t v h
    have hall : ∀ p ∈ defaultTerms, 1 ≤ p.2 := by decide
    simpa using hall (t, v) hmem

theorem calculate_score_nonneg (db : List (String × Nat)) (term : String)
    (guessesUsed : Int) (drawing : String) :
    0 ≤ calculate_score db term guessesUsed drawing := by
  simp only [calculate_score]
  split_ifs
  all_goals
    refine le_trans (Int.le_floor.mpr ?_) (le_add_of_nonneg_right (by norm_num))
    push_cast
    positivity

theorem calculate_score_ge_ten (db : List (String × Nat)) (term : String)
    (guessesUsed : Int) (drawing : String) (hd : 1 ≤ dbGet db term 3) :
    10 ≤ calculate_score db term guessesUsed drawing := by
  have hq : (1 : ℚ) ≤ (dbGet db term 3 : ℚ) := by exact_mod_cast hd
  simp only [calculate_score]
  split_ifs
  all_goals
    refine le_trans (Int.le_floor.mpr ?_) (le_add_of_nonneg_right (by norm_num))
    push_cast
    nlinarith

theorem advance_round_sharedScore (cfg : Config) (pick : Nat → Fin 3)
    (s : GState) : (advance_round cfg pick s).sharedScore = s.sharedScore := by
  unfold advance_round
  split_ifs <;> rfl

end ASCIIArt

/-- C10: `ASCIIArtGameEnv._validate_drawing(drawing, allowed_symbols)` is a
pure predicate (a function of its two arguments alone) that returns `True`
exactly when every character of the drawing is a member of the allowed symbol
set extended with the whitespace characters space, newline and tab. -/
theorem validate_drawing_iff_allowed (drawing : String) (allowedSymbols : List Char) :
    ASCIIArt.validate_drawing drawing allowedSymbols = true ↔
      ∀ c ∈ drawing.toList,
        c ∈ allowedSymbols ∨ c = ' ' ∨ c = '\n' ∨ c = '\t' := by
  simp [ASCIIArt.validate_drawing]

/-- The state after a non-raising `ASCIIArt.step` (the `getD` default is never
used when the step succeeded). -/
def ASCIIArt.stepResult (cfg : ASCIIArt.Config) (pick : Nat → Fin 3)
    (currentPlayer : Nat) (action : String) (s : ASCIIArt.GState) :
    ASCIIArt.GState :=
  ((ASCIIArt.step cfg pick currentPlayer action s).getD (s, true)).1

/-- C9: In ASCIIArtGame, `shared_score` is monotonically non-decreasing across
`step` calls: it changes only on a correct guess, where it increases by
`_calculate_score(term, guesses_used, drawing)`, and under the default term
database (every difficulty at least 1) that increment is at least 10. -/
theorem ascii_shared_score_monotone (cfg : ASCIIArt.Config) (pick : Nat → Fin 3)
    (currentPlayer : Nat) (action : String) (s : ASCIIArt.GState)
    (h : (ASCIIArt.step cfg pick currentPlayer action s).isSome = true) :
    s.sharedScore ≤ (ASCIIArt.stepResult cfg pick currentPlayer action s).sharedScore ∧
    (¬ (currentPlayer ≠ s.currentArtist ∧
        mapLower action = mapLower (ASCIIArt.termOf s s.currentRound s.currentArtist)) →
      (ASCIIArt.stepResult cfg pick currentPlayer action s).sharedScore = s.sharedScore) ∧
    (∀ drawing, currentPlayer ≠ s.currentArtist →
      mapLower action = mapLower (ASCIIArt.termOf s s.currentRound s.currentArtist) →
      s.currentDrawing = some drawing →
      (ASCIIArt.stepResult cfg pick currentPlayer action s).sharedScore =
        s.sharedScore + ASCIIArt.calculate_score cfg.termDatabase
          (ASCIIArt.termOf s s.currentRound s.currentArtist)
          (cfg.maxGuessesPerRound - s.guessesRemaining + 1) drawing) ∧
    (cfg.termDatabase = ASCIIArt.defaultTerms →
      (ASCIIArt.stepResult cfg pick currentPlayer action s).sharedScore ≠ s.sharedScore →
      s.sharedScore + 10 ≤ (ASCIIArt.stepResult cfg pick currentPlayer action s).sharedScore) := by
  by_cases hart : currentPlayer = s.currentArtist
  · by_cases hval : ASCIIArt.validate_drawing action s.currentSymbols = true
    · have hs1 : (ASCIIArt.stepResult cfg pick currentPlayer action s).sharedScore = s.sharedScore := by
        simp [ASCIIArt.stepResult, ASCIIArt.step, hart, hval]
      refine ⟨le_of_eq hs1.symm, fun _ => hs1, ?_, ?_⟩
      · intro drawing hne _ _
        exact absurd hart hne
      · intro _ hne
        exact absurd hs1 hne
    · have hs1 : (ASCIIArt.stepResult cfg pick currentPlayer action s).sharedScore = s.sharedScore := by
        simp [ASCIIArt.stepResult, ASCIIArt.step, hart, hval]
      refine ⟨le_of_eq hs1.symm, fun _ => hs1, ?_, ?_⟩
      · intro drawing hne _ _
        exact absurd hart hne
      · intro _ hne
        exact absurd hs1 hne
  · by_cases hguess : mapLower action = mapLower (ASCIIArt.termOf s s.currentRound s.currentArtist)
    · cases hdrw : s.currentDrawing with
      | none =>
        exfalso
        simp only [ASCIIArt.termOf] at hguess
        simp [ASCIIArt.step, ASCIIArt.termOf, hart, hguess, hdrw] at h
      | some drawing =>
        have hs1 : (ASCIIArt.stepResult cfg pick currentPlayer action s).sharedScore =
            s.sharedScore + ASCIIArt.calculate_score cfg.termDatabase
              (ASCIIArt.termOf s s.currentRound s.currentArtist)
              (cfg.maxGuessesPerRound - s.guessesRemaining + 1) drawing := by
          have hguess' := hguess
          simp only [ASCIIArt.termOf] at hguess'
          simp [ASCIIArt.stepResult, ASCIIArt.step, ASCIIArt.termOf, hart, hguess', hdrw,
            ASCIIArt.advance_round_sharedScore]
        refine ⟨?_, ?_, ?_, ?_⟩
        · rw [hs1]
          have := ASCIIArt.calculate_score_nonneg cfg.termDatabase
            (ASCIIArt.termOf s s.currentRound s.currentArtist)
            (cfg.maxGuessesPerRound - s.guessesRemaining + 1) drawing
          omega
        · intro hne
          exact absurd ⟨hart, hguess⟩ hne
        · intro drawing' _ _ hdw
          obtain rfl : drawing = drawing' := by injection hdw
          exact hs1
        · intro hdb _
          rw [hs1, hdb]
          have := ASCIIArt.calculate_score_ge_ten ASCIIArt.defaultTerms
            (ASCIIArt.termOf s s.currentRound s.currentArtist)
            (cfg.maxGuessesPerRound - s.guessesRemaining + 1) drawing
            (ASCIIArt.one_le_dbGet_defaultTerms _)
          omega
    · have hguess' := hguess
      simp [ASCIIArt.termOf] at hguess'
      by_cases hg0 : s.guessesRemaining ≤ 1
      · have hs1 : (ASCIIArt.stepResult cfg pick currentPlayer action s).sharedScore = s.sharedScore := by
          cases hdrw : s.currentDrawing with
          | none =>
            simp [ASCIIArt.stepResult, ASCIIArt.step, ASCIIArt.termOf, hart, hguess', hg0, hdrw,
              ASCIIArt.advance_round_sharedScore]
          | some drawing =>
            simp [ASCIIArt.stepResult, ASCIIArt.step, ASCIIArt.termOf, hart, hguess', hg0, hdrw,
              ASCIIArt.advance_round_sharedScore]
        refine ⟨le_of_eq hs1.symm, fun _ => hs1, ?_, ?_⟩
        · intro drawing _ hml _
          exact absurd hml hguess
        · intro _ hne
          exact absurd hs1 hne
      · have hs1 : (ASCIIArt.stepResult cfg pick currentPlayer action s).sharedScore = s.sharedScore := by
          cases hdrw : s.currentDrawing with
          | none =>
            simp [ASCIIArt.stepResult, ASCIIArt.step, ASCIIArt.termOf, hart, hguess', hg0, hdrw]
          | some drawing =>
            simp [ASCIIArt.stepResult, ASCIIArt.step, ASCIIArt.termOf, hart, hguess', hg0, hdrw]
        refine ⟨le_of_eq hs1.symm, fun _ => hs1, ?_, ?_⟩
        · intro drawing _ hml _
          exact absurd hml hguess
        · intro _ hne
          exact absurd hs1 hne

/-- A concrete mid-game state used to witness the shared-score theorem: player
1 is the guesser, the drawing is stored and the term for round 0 is "cat". -/
def asciiExampleState : ASCIIArt.GState :=
  { terms := [("cat", "dog")], currentRound := 0, currentArtist := 0,
    currentGuesser := 1, sharedScore := 0, currentSymbols := ['o'],
    guessesRemaining := 3, currentDrawing := some "o", roundResults := [],
    outcome := none, obs := [], rngIdx := 0 }

theorem ascii_shared_score_monotone_witness :
    (ASCIIArt.step ASCIIArt.defaultConfig (fun _ => 0) 1 "cat" asciiExampleState).isSome = true ∧
    asciiExampleState.sharedScore ≤
      (ASCIIArt.stepResult ASCIIArt.defaultConfig (fun _ => 0) 1 "cat" asciiExampleState).sharedScore := by
  have h : (ASCIIArt.step ASCIIArt.defaultConfig (fun _ => 0) 1 "cat"
      asciiExampleState).isSome = true := by decide
  exact ⟨h, (ascii_shared_score_monotone ASCIIArt.defaultConfig (fun _ => 0) 1
    "cat" asciiExampleState h).1⟩

namespace WordLadder

/-!
Embedding of `textarena/envs/single_player/WordLadder/env.py` (class
`WordLadderEnv`).
-/

/-- The first match of the pattern of `step`
(`re.compile(r"\[([a-zA-Z]+)\]")`) in the action string: the regex engine
tries each start position left to right; at a literal bracket the greedy
letter run must be nonempty and immediately followed by the closing bracket
for the match to succeed at that position. -/
def findBracketedWord : List Char → Option (List Char)
  | [] => none
  | c :: rest =>
    if c = '[' then
      let run := rest.takeWhile Char.isAlpha
      if run ≠ [] ∧ (rest.drop run.length).head? = some ']' then some run
      else findBracketedWord rest
    else findBracketedWord rest

/-- Source `WordLadderEnv._is_one_alphabet_different`: lower-cases the candidate,
zips it with the current word and counts differing positions; the move is
valid exactly when the count is 1. -/
def is_one_alphabet_different (currentWord nextWord : String) : Bool :=
  let next := mapLower nextWord
  decide (((currentWord.data.zip next.data).filter
    (fun p => p.1 ≠ p.2)).length = 1)

/-- Environment data fixed for one episode: the target word and the universal
word list (built at `__init__` from NLTK and the spell-check dictionaries —
external data, abstracted to an arbitrary list here). -/
structure Config where
  targetWord : String
  universalWordList : List String

/-- The per-episode mutable state that C8 is about: `self.current_word`,
`self.history`, the invalid-move records of `set_invalid_move`, the outcome
of `set_winners` and the `(from, to)` observation log.  (The derived
`game_state["rendered_text"]` string is a pure rendering of `history` and is
not separately modelled.) -/
structure WState where
  currentWord : String
  history : List String
  invalidMoves : Nat
  outcome : Option Core.Outcome
  obs : List (Int × Int)

/-- Source `WordLadderEnv.reset` (the part that initializes the play state):
`current_word = start_word`, `history = [start_word]`. -/
def reset (startWord : String) : WState :=
  { currentWord := startWord, history := [startWord], invalidMoves := 0,
    outcome := none, obs := [] }

/-- Source `WordLadderEnv.step`: search the action for a bracketed word; reject it
(via `set_invalid_move`) when the format, the length against the target word,
membership in the universal word list or the one-letter-difference check
fails; otherwise set `current_word`, append the word to `history` and declare
the player winner when it equals the target word. -/
def step (cfg : Config) (s : WState) (action : String) : WState :=
  let s := { s with obs := s.obs ++ [(0, -1)] }
  match findBracketedWord action.data with
  | none => { s with invalidMoves := s.invalidMoves + 1 }
  | some run =>
    let nextWord : String := ⟨run⟩
    if nextWord.length ≠ cfg.targetWord.length then
      { s with invalidMoves := s.invalidMoves + 1 }
    else if nextWord ∉ cfg.universalWordList then
      { s with invalidMoves := s.invalidMoves + 1 }
    else if ¬ is_one_alphabet_different s.currentWord nextWord then
      { s with invalidMoves := s.invalidMoves + 1 }
    else
      let s := { s with currentWord := nextWord, history := s.history ++ [nextWord] }
      if nextWord = cfg.targetWord then
        { s with outcome := some (Core.Outcome.mk [0]
            "Congratulations! Player 0 has found the target word.") }
      else
        { s with obs := s.obs ++ [(-1, 0)] }

/-- Folding `step` over a list of submitted actions. -/
def run (cfg : Config) (s : WState) : List String → WState
  | [] => s
  | a :: rest => run cfg (step cfg s a) rest

end WordLadder

namespace WordLadder

theorem step_history_cases (cfg : Config) (s : WState) (a : String) :
    (step cfg s a).history = s.history ∨
    ∃ w : String, (step cfg s a).history = s.history ++ [w] ∧
      w.length = cfg.targetWord.length := by
  unfold step
  cases hf : findBracketedWord a.data with
  | none => left; rfl
  | some run =>
    by_cases h1 : (⟨run⟩ : String).length = cfg.targetWord.length
    · by_cases h2 : (⟨run⟩ : String) ∈ cfg.universalWordList
      · by_cases h3 : is_one_alphabet_different s.currentWord ⟨run⟩ = true
        · right
          refine ⟨⟨run⟩, ?_, h1⟩
          simp at h1
          simp [h1, h2, h3]
          split_ifs <;> rfl
        · left
          simp at h1
          simp [h1, h2, h3]
      · left
        simp at h1
        simp [h1, h2]
    · left
      simp at h1
      simp [h1]

theorem run_history_extends (cfg : Config) (s : WState) (acts : List String) :
    ∃ t, (run cfg s acts).history = s.history ++ t ∧
      ∀ w ∈ t, w.length = cfg.targetWord.length := by
  induction acts generalizing s with
  | nil => exact ⟨[], by simp [run]⟩
  | cons a rest ih =>
    obtain ⟨t, ht, hlen⟩ := ih (step cfg s a)
    rcases step_history_cases cfg s a with h | ⟨w, hw, hl⟩
    · exact ⟨t, by simp [run, ht, h], hlen⟩
    · refine ⟨w :: t, by simp [run, ht, hw], ?_⟩
      intro x hx
      rcases List.mem_cons.mp hx with rfl | hx2
      · exact hl
      · exact hlen x hx2

end WordLadder

/-- C8: In WordLadder, a word is appended to `history` only after passing the
length check against the target word, so (for an episode whose start word has
the target word's length, as the same-length word-graph generation
guarantees) every word in `history` has exactly the length of `target_word`;
and `history` is append-only: each `step` either leaves it unchanged or
appends one word, never removing or replacing entries. -/
theorem wordladder_history_invariant (cfg : WordLadder.Config)
    (startWord : String) (h : startWord.length = cfg.targetWord.length)
    (acts : List String) :
    (∀ w ∈ (WordLadder.run cfg (WordLadder.reset startWord) acts).history,
      w.length = cfg.targetWord.length) ∧
    (∃ t, (WordLadder.run cfg (WordLadder.reset startWord) acts).history =
      startWord :: t) ∧
    (∀ s : WordLadder.WState, ∀ a : String,
      (WordLadder.step cfg s a).history = s.history ∨
      ∃ w, (WordLadder.step cfg s a).history = s.history ++ [w]) := by
  obtain ⟨t, ht, hlen⟩ :=
    WordLadder.run_history_extends cfg (WordLadder.reset startWord) acts
  refine ⟨?_, ⟨t, by simpa [WordLadder.reset] using ht⟩, ?_⟩
  · intro w hw
    rw [ht] at hw
    simp [WordLadder.reset] at hw
    rcases hw with hw | hw
    · exact hw ▸ h
    · exact hlen w hw
  · intro s a
    rcases WordLadder.step_history_cases cfg s a with h1 | ⟨w, hw, _⟩
    · exact Or.inl h1
    · exact Or.inr ⟨w, hw⟩

/-- A concrete episode for the witness: start "warm", target "cold", one valid
move "[worm]". -/
def wlExampleConfig : WordLadder.Config :=
  { targetWord := "cold", universalWordList := ["warm", "worm", "cold"] }

theorem wordladder_history_invariant_witness :
    ("warm".length = wlExampleConfig.targetWord.length) ∧
    (∀ w ∈ (WordLadder.run wlExampleConfig (WordLadder.reset "warm")
        ["[worm]"]).history, w.length = wlExampleConfig.targetWord.length) :=
  ⟨by decide,
   (wordladder_history_invariant wlExampleConfig "warm" (by decide) ["[worm]"]).1⟩

namespace Tak

/-!
Embedding of `textarena/envs/two_player/Tak/env.py` (class `TakEnv`), in
particular `_is_valid_movement`, the validator for `move` actions.  Board
cells are stacks of piece strings such as `"F0"`, `"W1"`, `"C0"`.  A `none`
result marks a Python exception escaping the function.
-/

/-- A Tak board: `board_size x board_size` cells, each a stack of pieces. -/
abbrev Board := List (List (List String))

/-- Read `self.board[r][c]` with Python list-index semantics for the nonnegative
indices produced by the action regex (`\d+`): out of range raises. -/
def boardAt (b : Board) (r c : Nat) : Option (List String) :=
  (b.get? r).bind (fun row => row.get? c)

/-- Write one cell of the board (indices in range). -/
def boardSet (b : Board) (r c : Nat) (stack : List String) : Board :=
  b.set r (((b.get? r).getD []).set c stack)

/-- Statement `target_list[-1] = "F" + target_list[-1][1]` — the in-place capstone
flattening inside `_is_valid_movement` (the validator mutates the board).
Raises (`none`) if the stack is empty or its top string is shorter than two
characters. -/
def flattenTop (b : Board) (tr tc : Nat) (tstack : List String) : Option Board :=
  match tstack.getLast? with
  | none => none
  | some top =>
    match top.data.get? 1 with
    | none => none
    | some c1 => some (boardSet b tr tc (tstack.dropLast ++ [⟨['F', c1]⟩]))

/-- The `for target, pieces in allocation.items()` loop of
`_is_valid_movement`: `Sum.inl` is an early `return False` (with the board as
mutated so far), `Sum.inr` carries the accumulated `allocated_pieces` and the
board after the loop; `none` is a raised exception. -/
def movementLoop (boardSize : Nat) (stoneType : Char) :
    Board → List String → List ((Nat × Nat) × List String) →
    Option (Board ⊕ (List String × Board))
  | b, acc, [] => some (Sum.inr (acc, b))
  | b, acc, (target, pieces) :: rest =>
    if boardSize ≤ target.1 ∨ boardSize ≤ target.2 then some (Sum.inl b)
    else
      let tstack := (boardAt b target.1 target.2).getD []
      if stoneType = 'F' ∧ "W" ∈ tstack then some (Sum.inl b)
      else if stoneType = 'W' ∧ "C" ∈ tstack then some (Sum.inl b)
      else
        match (if stoneType = 'C' ∧ "W" ∈ tstack
               then flattenTop b target.1 target.2 tstack
               else some b) with
        | none => none
        | some b2 =>
          if "C" ∈ pieces ∧ 1 < pieces.length then some (Sum.inl b2)
          else movementLoop boardSize stoneType b2 (acc ++ pieces) rest

/-- Source `TakEnv._is_valid_movement(source, allocation)` (lines 430-493).  The very
first statement — `stone_type = self.board[source[0]][source[1]][-1][0]` —
dereferences the source cell BEFORE the `source is None`, bounds and
nonemptiness checks that follow it, so a missing source (`None`), an
out-of-range source or an empty source stack raises
(`TypeError`/`IndexError`, embedded as `none`) and the guards on lines
442-452 are dead code.  The result pairs the returned boolean with the
(possibly mutated) board.  `str(current_player)` is a single digit for the
two players of this game. -/
def is_valid_movement (boardSize : Nat) (board : Board) (currentPlayer : Nat)
    (source : Option (Nat × Nat)) (allocation : List ((Nat × Nat) × List String)) :
    Option (Bool × Board) :=
  match source with
  | none => none
  | some (sr, sc) =>
    match boardAt board sr sc with
    | none => none
    | some stack =>
      match stack.getLast? with
      | none => none
      | some top =>
        match top.data.head? with
        | none => none
        | some stoneType =>
          if boardSize ≤ sr ∨ boardSize ≤ sc then some (false, board)
          else if stack = [] then some (false, board)
          else if top.data.getLast? ≠ some (Nat.digitChar currentPlayer) then
            some (false, board)
          else
            match movementLoop boardSize stoneType board [] allocation with
            | none => none
            | some (Sum.inl b2) => some (false, b2)
            | some (Sum.inr (allocated, b2)) =>
              let sourceStack := (boardAt b2 sr sc).getD []
              if sourceStack.length < allocated.length then some (false, b2)
              else
                let topOfStack :=
                  if allocated.length = 0 then sourceStack
                  else sourceStack.drop (sourceStack.length - allocated.length)
                if allocated ≠ topOfStack then some (false, b2)
                else some (true, b2)

/-- The empty 4x4 board of the default `easy` difficulty, right after
`reset`. -/
def easyBoard : Board :=
  List.replicate 4 (List.replicate 4 ([] : List String))

end Tak

/-- C1 (code_bug evidence): in Tak, a syntactically well-formed `move` action
whose source square is out of range (for example
`[move (9,9) {'(0,0)': ['F0']}]` on the 4x4 easy board) or missing
(`[move () ...]`) makes `_is_valid_movement` raise
(`IndexError`/`TypeError`) at its first line instead of reaching
`set_invalid_move`: the embedded function returns `none` (= exception) on
both inputs, so `step` does not return a 5-tuple there, contradicting the
spec sentence that out-of-range coordinates are surfaced via
`set_invalid_move`. -/
theorem tak_move_out_of_range_raises :
    Tak.is_valid_movement 4 Tak.easyBoard 0 (some (9, 9)) [((0, 0), ["F0"])] =
      none ∧
    Tak.is_valid_movement 4 Tak.easyBoard 0 none [((0, 0), ["F0"])] = none ∧
    Tak.is_valid_movement 4 Tak.easyBoard 0 (some (0, 0)) [((0, 1), ["F0"])] =
      none := by
  refine ⟨rfl, rfl, rfl⟩

namespace Bomberman

/-!
Embedding of `textarena/envs/two_player/Bomberman/env.py`
(class `TwoPlayerBombermanEnv`).
-/

/-- The grid symbols of the `symbols` dictionary. -/
inductive Sym where
  | empty
  | player0
  | player1
  | indestructibleWall
  | destructibleWall
  | bomb
  | explosion
deriving DecidableEq, Repr

abbrev Grid := List (List Sym)

/-- Tuples `(row, col, timer, owner_id)` as appended to `game_state["bombs"]`. -/
abbrev Bomb := Int × Int × Nat × Nat

/-- Constructor arguments of `__init__`. -/
structure Config where
  rows : Nat
  cols : Nat
  maxTurns : Nat
  bombTimer : Nat
  explosionRadius : Nat

/-- Read `grid[row][col]` for in-range reads (all reads in the translated code are
bounds-guarded or at player/bomb positions, which stay in range). -/
def cellAt (g : Grid) (row col : Int) : Option Sym :=
  if row < 0 ∨ col < 0 then none
  else (g.get? row.toNat).bind (fun r => r.get? col.toNat)

/-- Write `grid[row][col] = sym` for in-range writes (out-of-range writes, which
cannot occur in play, leave the grid unchanged). -/
def setCell (g : Grid) (row col : Int) (sym : Sym) : Grid :=
  if 0 ≤ row ∧ 0 ≤ col then
    g.set row.toNat (((g.get? row.toNat).getD []).set col.toNat sym)
  else g

/-- Source `TwoPlayerBombermanEnv._is_valid_move`: the target must be in range and
hold `empty` or `explosion`. -/
def is_valid_move (cfg : Config) (g : Grid) (newPos : Int × Int) : Bool :=
  if ¬ (0 ≤ newPos.1 ∧ newPos.1 < (cfg.rows : Int) ∧
        0 ≤ newPos.2 ∧ newPos.2 < (cfg.cols : Int)) then false
  else
    match cellAt g newPos.1 newPos.2 with
    | some cell => decide (cell = Sym.empty ∨ cell = Sym.explosion)
    | none => false

/-- One direction of an explosion in `_process_bombs`: walk
`1..explosion_radius` cells from the bomb; stop at the grid edge, stop before
an indestructible wall, include a destructible wall and stop after it. -/
def rayCells (cfg : Config) (g : Grid) (row col dr dc : Int) :
    Nat → Int → List (Int × Int)
  | 0, _ => []
  | fuel + 1, i =>
    let nr := row + dr * i
    let nc := col + dc * i
    if ¬ (0 ≤ nr ∧ nr < (cfg.rows : Int) ∧ 0 ≤ nc ∧ nc < (cfg.cols : Int)) then
      []
    else if cellAt g nr nc = some Sym.indestructibleWall then []
    else if cellAt g nr nc = some Sym.destructibleWall then [(nr, nc)]
    else (nr, nc) :: rayCells cfg g row col dr dc fuel (i + 1)

/-- All cells covered by one exploding bomb: its own cell plus the four rays,
in the direction order `[(-1,0), (1,0), (0,-1), (0,1)]` of the source. -/
def explosionCellsOfBomb (cfg : Config) (g : Grid) (row col : Int) :
    List (Int × Int) :=
  (row, col) ::
    (rayCells cfg g row col (-1) 0 cfg.explosionRadius 1 ++
     rayCells cfg g row col 1 0 cfg.explosionRadius 1 ++
     rayCells cfg g row col 0 (-1) cfg.explosionRadius 1 ++
     rayCells cfg g row col 0 1 cfg.explosionRadius 1)

/-- Apply a position-dependent update to every cell (the Python loops over the
`explosion_cells` set update each listed cell once; the updates are
pointwise, so a single indexed pass is equivalent). -/
def mapGrid (g : Grid) (f : Int → Int → Sym → Sym) : Grid :=
  g.mapIdx (fun i row => row.mapIdx (fun j s => f (i : Int) (j : Int) s))

/-- Source `TwoPlayerBombermanEnv._process_bombs`: decrement timers, keep unexploded
bombs, mark explosions on the grid (destructible walls become empty,
everything else in range becomes `explosion`), collect the players standing in
an explosion cell, then clear the explosion markers.  Returns the final grid,
the surviving bombs and the two hit flags. -/
def processBombs (cfg : Config) (g : Grid) (pos0 pos1 : Int × Int)
    (bombs : List Bomb) : Grid × List Bomb × Bool × Bool :=
  let newBombs := bombs.filterMap (fun b =>
    if 0 < b.2.2.1 - 1 then some (b.1, b.2.1, b.2.2.1 - 1, b.2.2.2) else none)
  let exploded := bombs.filter (fun b => b.2.2.1 - 1 = 0)
  let cells := exploded.flatMap (fun b => explosionCellsOfBomb cfg g b.1 b.2.1)
  let g1 := mapGrid g (fun i j s =>
    if (i, j) ∈ cells then
      (if s = Sym.destructibleWall then Sym.empty else Sym.explosion)
    else s)
  let hit0 := decide (pos0 ∈ cells)
  let hit1 := decide (pos1 ∈ cells)
  let g2 := mapGrid g1 (fun i j s =>
    if (i, j) ∈ cells ∧ s = Sym.explosion then Sym.empty else s)
  (g2, newBombs, hit0, hit1)

/-- The `game_state` of the Bomberman session, the `(from, to)` observation
log and the outcome recorded by `set_winners`. -/
structure GState where
  grid : Grid
  pos0 : Int × Int
  pos1 : Int × Int
  bombs : List Bomb
  turnCount : Nat
  winner : Option Nat
  pending : List (Fin 2 × String)
  roundComplete : Bool
  outcome : Option Core.Outcome
  obs : List (Int × Int)

/-- The `for player_id, action in pending_actions.items()` loop of
`_execute_actions`, threading grid, the two positions and the bomb list in
dictionary (insertion) order. -/
def processPending (cfg : Config) :
    List (Fin 2 × String) →
    Grid × (Int × Int) × (Int × Int) × List Bomb →
    Grid × (Int × Int) × (Int × Int) × List Bomb
  | [], st => st
  | (pid, action) :: rest, (g, p0, p1, bombs) =>
    let pos := if pid = 0 then p0 else p1
    let a := pyStrip (mapLower action)
    let newPos : Int × Int :=
      if a = "up" then (pos.1 - 1, pos.2)
      else if a = "down" then (pos.1 + 1, pos.2)
      else if a = "left" then (pos.1, pos.2 - 1)
      else if a = "right" then (pos.1, pos.2 + 1)
      else pos
    let gb :=
      if a = "bomb" then
        ((if cellAt g pos.1 pos.2 = some Sym.empty
          then setCell g pos.1 pos.2 Sym.bomb else g),
         bombs ++ [(pos.1, pos.2, cfg.bombTimer, (pid : Nat))])
      else (g, bombs)
    let moved :=
      (a = "up" ∨ a = "down" ∨ a = "left" ∨ a = "right") ∧
        is_valid_move cfg gb.1 newPos = true
    let p0' := if moved ∧ pid = 0 then newPos else p0
    let p1' := if moved ∧ pid = 1 then newPos else p1
    processPending cfg rest (gb.1, p0', p1', gb.2)

/-- Source `TwoPlayerBombermanEnv._execute_actions`: clear the player cells, process
the pending actions, put the players back on empty cells, process bombs,
increment `turn_count`, empty `pending_actions` and set `round_complete`.
Returns the new state plus the two hit flags. -/
def executeActions (cfg : Config) (s : GState) : GState × Bool × Bool :=
  let g0 := setCell (setCell s.grid s.pos0.1 s.pos0.2 Sym.empty)
    s.pos1.1 s.pos1.2 Sym.empty
  let st := processPending cfg s.pending (g0, s.pos0, s.pos1, s.bombs)
  let g1 := st.1
  let p0 := st.2.1
  let p1 := st.2.2.1
  let bombs := st.2.2.2
  let g2 := if cellAt g1 p0.1 p0.2 = some Sym.empty
            then setCell g1 p0.1 p0.2 Sym.player0 else g1
  let g3 := if cellAt g2 p1.1 p1.2 = some Sym.empty
            then setCell g2 p1.1 p1.2 Sym.player1 else g2
  let pb := processBombs cfg g3 p0 p1 bombs
  ({ s with grid := pb.1, pos0 := p0, pos1 := p1, bombs := pb.2.1,
            turnCount := s.turnCount + 1, pending := [], roundComplete := true },
   pb.2.2.1, pb.2.2.2)

/-- The action strings `step` accepts. -/
def validActions : List String := ["up", "down", "left", "right", "bomb", "stay"]

/-- The state just after `step` has logged a valid action and stored it in
`pending_actions` (the common prefix of the two branches of `step`). -/
def stagedState (currentPlayer : Fin 2) (action : String) (s : GState) : GState :=
  { s with
    obs := s.obs ++ [(((currentPlayer : Nat) : Int), -1)]
    pending := dictInsert s.pending currentPlayer (pyStrip (mapLower action)) }

/-- Source `TwoPlayerBombermanEnv.step`.  The acting player is the core's
`current_player_id` (a parameter here); `1 - current_player` is the other
player.  An unrecognized action only emits a retry prompt; a stored action
either waits for the other player or resolves the round and applies the
end-of-round rules (eliminations, then the turn limit). -/
def step (cfg : Config) (currentPlayer : Fin 2) (action : String)
    (s : GState) : GState :=
  let a := pyStrip (mapLower action)
  if a ∉ validActions then
    { s with obs := s.obs ++ [(-1, ((currentPlayer : Nat) : Int))] }
  else
    let s1 := stagedState currentPlayer action s
    if s1.pending.length < 2 then
      { s1 with
        roundComplete := false
        obs := s1.obs ++ [(-1, 1 - ((currentPlayer : Nat) : Int))] }
    else
      let ex := executeActions cfg s1
      let s2 := ex.1
      if ex.2.1 = true ∨ ex.2.2 = true then
        if ex.2.1 = true ∧ ex.2.2 = true then
          { s2 with
            winner := none
            outcome := some (Core.Outcome.mk [0, 1] "Draw due to mutual elimination")
            obs := s2.obs ++ [(-1, -1)] }
        else
          let loser : Nat := if ex.2.1 = true then 0 else 1
          { s2 with
            winner := some (1 - loser)
            outcome := some (Core.Outcome.mk [1 - loser]
              ("Player " ++ toString (1 - loser) ++ " eliminated opponent"))
            obs := s2.obs ++ [(-1, -1)] }
      else if cfg.maxTurns ≤ s2.turnCount then
        { s2 with
          winner := none
          outcome := some (Core.Outcome.mk [0, 1] "Draw due to turn limit")
          obs := s2.obs ++ [(-1, -1)] }
      else
        { s2 with obs := s2.obs ++ [(-1, 0), (-1, 1)] }

end Bomberman

namespace Bomberman

theorem executeActions_turnCount (cfg : Config) (s : GState) :
    (executeActions cfg s).1.turnCount = s.turnCount + 1 := rfl

theorem executeActions_pending (cfg : Config) (s : GState) :
    (executeActions cfg s).1.pending = [] := rfl

theorem executeActions_roundComplete (cfg : Config) (s : GState) :
    (executeActions cfg s).1.roundComplete = true := rfl

theorem executeActions_outcome (cfg : Config) (s : GState) :
    (executeActions cfg s).1.outcome = s.outcome := rfl

/-- The condition under which a `step` call resolves the round: the action is
recognized and, once it is stored, `pending_actions` has an entry for both
players (`len(...) < 2` fails). -/
def resolvesRound (currentPlayer : Fin 2) (action : String) (s : GState) : Prop :=
  pyStrip (mapLower action) ∈ validActions ∧
  2 ≤ (dictInsert s.pending currentPlayer (pyStrip (mapLower action))).length

instance (cp : Fin 2) (a : String) (s : GState) :
    Decidable (resolvesRound cp a s) := by
  unfold resolvesRound
  infer_instance

theorem step_turnCount (cfg : Config) (cp : Fin 2) (action : String)
    (s : GState) :
    (step cfg cp action s).turnCount =
      if resolvesRound cp action s then s.turnCount + 1 else s.turnCount := by
  unfold step resolvesRound
  by_cases hv : pyStrip (mapLower action) ∈ validActions
  · by_cases hl : (dictInsert s.pending cp (pyStrip (mapLower action))).length < 2
    · have hnr : ¬ (pyStrip (mapLower action) ∈ validActions ∧
          2 ≤ (dictInsert s.pending cp (pyStrip (mapLower action))).length) :=
        fun hc => absurd hc.2 (by omega)
      simp [hv, hl, stagedState, hnr]
      rw [if_neg (by omega)]
    · have hr : pyStrip (mapLower action) ∈ validActions ∧
          2 ≤ (dictInsert s.pending cp (pyStrip (mapLower action))).length :=
        ⟨hv, by omega⟩
      rw [if_pos hr]
      simp [hv, hl, stagedState]
      split_ifs <;> rfl
  · have hnr : ¬ (pyStrip (mapLower action) ∈ validActions ∧
        2 ≤ (dictInsert s.pending cp (pyStrip (mapLower action))).length) :=
      fun hc => absurd hc.1 hv
    simp [hv, hnr]

end Bomberman

namespace Bomberman

theorem step_pending_cases (cfg : Config) (cp : Fin 2) (action : String)
    (s : GState) :
    (step cfg cp action s).pending = s.pending ∨
    (step cfg cp action s).pending =
      dictInsert s.pending cp (pyStrip (mapLower action)) ∨
    (step cfg cp action s).pending = [] := by
  unfold step
  by_cases hv : pyStrip (mapLower action) ∈ validActions
  · by_cases hl : (dictInsert s.pending cp (pyStrip (mapLower action))).length < 2
    · right; left
      simp [hv, hl, stagedState]
    · right; right
      simp [hv, hl, stagedState]
      split_ifs <;> rfl
  · left
    simp [hv]

theorem step_resolved_pending (cfg : Config) (cp : Fin 2) (action : String)
    (s : GState) (h : resolvesRound cp action s) :
    (step cfg cp action s).pending = [] := by
  obtain ⟨hv, hlen⟩ := h
  have hl : ¬ (dictInsert s.pending cp (pyStrip (mapLower action))).length < 2 := by
    omega
  unfold step
  simp [hv, hl, stagedState]
  split_ifs <;> rfl

theorem step_waiting_eq (cfg : Config) (cp : Fin 2) (action : String)
    (s : GState)
    (hv : pyStrip (mapLower action) ∈ validActions)
    (hl : (dictInsert s.pending cp (pyStrip (mapLower action))).length < 2) :
    step cfg cp action s =
      { s with
        pending := dictInsert s.pending cp (pyStrip (mapLower action))
        roundComplete := false
        obs := s.obs ++ [(((cp : Nat) : Int), -1), (-1, 1 - ((cp : Nat) : Int))] } := by
  unfold step
  simp [hv, hl, stagedState]

theorem step_keysNodup (cfg : Config) (cp : Fin 2) (action : String)
    (s : GState) (h : (dictKeys s.pending).Nodup) :
    (dictKeys (step cfg cp action s).pending).Nodup := by
  rcases step_pending_cases cfg cp action s with hp | hp | hp <;> rw [hp]
  · exact h
  · exact dictInsert_keys_nodup _ _ _ h
  · simp [dictKeys]

/-- Folding `step` over a list of `(current_player, action)` submissions. -/
def runSteps (cfg : Config) (s : GState) : List (Fin 2 × String) → GState
  | [] => s
  | (cp, a) :: rest => runSteps cfg (step cfg cp a s) rest

theorem runSteps_keysNodup (cfg : Config) (s : GState)
    (acts : List (Fin 2 × String)) (h : (dictKeys s.pending).Nodup) :
    (dictKeys (runSteps cfg s acts).pending).Nodup := by
  induction acts generalizing s with
  | nil => exact h
  | cons hd rest ih =>
    obtain ⟨cp, a⟩ := hd
    exact ih (step cfg cp a s) (step_keysNodup cfg cp a s h)

end Bomberman

theorem fin2_two_le_length_iff (l : List (Fin 2)) (h : l.Nodup) :
    2 ≤ l.length ↔ ((0 : Fin 2) ∈ l ∧ (1 : Fin 2) ∈ l) := by
  constructor
  · intro hl
    match l, h with
    | a :: b :: rest, h =>
      have hab : a ≠ b := by
        simp [List.nodup_cons] at h
        exact h.1.1
      constructor <;> · fin_cases a <;> fin_cases b <;> simp_all
  · rintro ⟨h0, h1⟩
    have hsub : ({0, 1} : Finset (Fin 2)) ⊆ l.toFinset := by
      intro x hx
      fin_cases x <;> simp_all
    calc 2 = ({0, 1} : Finset (Fin 2)).card := by decide
    _ ≤ l.toFinset.card := Finset.card_le_card hsub
    _ ≤ l.length := l.toFinset_card_le

namespace Bomberman

theorem stagedState_pending (cp : Fin 2) (a : String) (s : GState) :
    (stagedState cp a s).pending = dictInsert s.pending cp (pyStrip (mapLower a)) := rfl

theorem stagedState_turnCount (cp : Fin 2) (a : String) (s : GState) :
    (stagedState cp a s).turnCount = s.turnCount := rfl

theorem stagedState_outcome (cp : Fin 2) (a : String) (s : GState) :
    (stagedState cp a s).outcome = s.outcome := rfl

end Bomberman

/-- C2: For a Bomberman episode configured with `max_turns = N` and no winner
declared (no player hit when the round resolves), the episode ends in a draw
for both players exactly when the round counter (incremented once per
resolved round) reaches `N`: `set_winners([0, 1], "Draw due to turn limit")`
is recorded at the Nth resolution and not before, and under the spec's reward
model the full-winner-set draw carries reward (0, 0). -/
theorem bomberman_turn_limit_draw (cfg : Bomberman.Config) (cp : Fin 2)
    (action : String) (s : Bomberman.GState)
    (hv : pyStrip (mapLower action) ∈ Bomberman.validActions)
    (hfull : 2 ≤ (dictInsert s.pending cp (pyStrip (mapLower action))).length)
    (hnohit0 : (Bomberman.executeActions cfg
      (Bomberman.stagedState cp action s)).2.1 = false)
    (hnohit1 : (Bomberman.executeActions cfg
      (Bomberman.stagedState cp action s)).2.2 = false)
    (houtcome : s.outcome = none) :
    (Bomberman.step cfg cp action s).turnCount = s.turnCount + 1 ∧
    ((Bomberman.step cfg cp action s).outcome =
        some (Core.Outcome.mk [0, 1] "Draw due to turn limit") ↔
      cfg.maxTurns ≤ s.turnCount + 1) ∧
    Core.specRewards 2 [0, 1] 0 = 0 ∧ Core.specRewards 2 [0, 1] 1 = 0 := by
  have hl : ¬ (dictInsert s.pending cp (pyStrip (mapLower action))).length < 2 := by
    omega
  refine ⟨?_, ?_, by simp [Core.specRewards], by simp [Core.specRewards]⟩
  · rw [Bomberman.step_turnCount, if_pos ⟨hv, hfull⟩]
  · unfold Bomberman.step
    simp only [Bomberman.stagedState_pending]
    simp only [hv, hl]
    simp [hnohit0, hnohit1, Bomberman.executeActions_turnCount,
      Bomberman.executeActions_outcome, Bomberman.stagedState_turnCount,
      Bomberman.stagedState_outcome, houtcome]
    by_cases hmt : cfg.maxTurns ≤ s.turnCount + 1
    · simp [hmt]
    · simp [hmt]

/-- A concrete two-by-two episode about to hit the one-round turn limit. -/
def bombermanExampleCfg : Bomberman.Config :=
  { rows := 2, cols := 2, maxTurns := 1, bombTimer := 2, explosionRadius := 2 }

def bombermanExampleState : Bomberman.GState :=
  { grid := [[Bomberman.Sym.player0, Bomberman.Sym.empty],
             [Bomberman.Sym.empty, Bomberman.Sym.player1]]
    pos0 := (0, 0), pos1 := (1, 1), bombs := [], turnCount := 0,
    winner := none, pending := [(0, "stay")], roundComplete := false,
    outcome := none, obs := [] }

theorem bomberman_turn_limit_draw_witness :
    2 ≤ (dictInsert bombermanExampleState.pending 1
      (pyStrip (mapLower "stay"))).length ∧
    (Bomberman.step bombermanExampleCfg 1 "stay" bombermanExampleState).outcome =
      some (Core.Outcome.mk [0, 1] "Draw due to turn limit") := by
  have h := bomberman_turn_limit_draw bombermanExampleCfg 1 "stay"
    bombermanExampleState (by decide) (by decide) (by decide) (by decide) rfl
  exact ⟨by decide, h.2.1.mpr (by decide)⟩

namespace PMR

/-!
Embedding of `textarena/envs/two_player/PixelMazeRunner/env.py`
(class `PixelMazeRunnerEnv`).  The ambient `random.choice` over the three
powerup kinds is threaded as an oracle `pick : Nat → Fin 3` with a cursor
(`rngIdx`) in the state.
-/

/-- The grid symbols of the `symbols` dictionary. -/
inductive Sym where
  | empty
  | player0
  | player1
  | wall
  | destructible
  | key
  | trap
  | powerup
  | exitDoor
  | path
deriving DecidableEq, Repr

abbrev Grid := List (List Sym)

/-- Constructor arguments of `__init__`. -/
structure Config where
  rows : Nat
  cols : Nat
  maxTurns : Nat
  numKeys : Nat
  numTraps : Nat
  numPowerups : Nat
  numDestructible : Nat

/-- One player's entry of `game_state["player_stats"]`. -/
structure Stats where
  keys : Nat
  powerups : List String
  trapsHit : Nat
  activeEffects : List (String × Int)
deriving DecidableEq, Repr

def cellAt (g : Grid) (row col : Int) : Option Sym :=
  if row < 0 ∨ col < 0 then none
  else (g.get? row.toNat).bind (fun r => r.get? col.toNat)

def setCell (g : Grid) (row col : Int) (sym : Sym) : Grid :=
  if 0 ≤ row ∧ 0 ≤ col then
    g.set row.toNat (((g.get? row.toNat).getD []).set col.toNat sym)
  else g

/-- Source `PixelMazeRunnerEnv._is_valid_move`: in range, not a wall, and a
destructible obstacle only with an active "breaker" powerup. -/
def is_valid_move (cfg : Config) (g : Grid) (stats : Stats)
    (newPos : Int × Int) : Bool :=
  if ¬ (0 ≤ newPos.1 ∧ newPos.1 < (cfg.rows : Int) ∧
        0 ≤ newPos.2 ∧ newPos.2 < (cfg.cols : Int)) then false
  else
    match cellAt g newPos.1 newPos.2 with
    | none => false
    | some cell =>
      if cell = Sym.wall then false
      else if cell = Sym.destructible then
        decide ("breaker" ∈ dictKeys stats.activeEffects)
      else true

/-- Result of `_process_player_interaction`: the player's updated stats, the
grid (collected items removed), the winner assignment if the exit was reached
with enough keys, the number of broadcast messages, and whether the powerup
`random.choice` was consumed. -/
structure InteractionResult where
  stats : Stats
  grid : Grid
  winner : Option (Fin 2)
  msgs : Nat
  rngUsed : Bool

/-- Source `PixelMazeRunnerEnv._process_player_interaction`. -/
def process_player_interaction (cfg : Config) (pick : Nat → Fin 3)
    (rngIdx : Nat) (pid : Fin 2) (pos : Int × Int) (g : Grid)
    (stats : Stats) : InteractionResult :=
  let cell := (cellAt g pos.1 pos.2).getD Sym.empty
  if cell = Sym.key then
    { stats := { stats with keys := stats.keys + 1 }
      grid := setCell g pos.1 pos.2 Sym.empty
      winner := none
      msgs := 1 + (if stats.keys + 1 = cfg.numKeys then 1 else 0)
      rngUsed := false }
  else if cell = Sym.trap then
    { stats := { stats with
        trapsHit := stats.trapsHit + 1
        activeEffects := dictInsert stats.activeEffects "slowed" 2 }
      grid := setCell g pos.1 pos.2 Sym.empty
      winner := none, msgs := 1, rngUsed := false }
  else if cell = Sym.powerup then
    let effect :=
      if pick rngIdx = 0 then ("speed", (3 : Int))
      else if pick rngIdx = 1 then ("breaker", (5 : Int))
      else ("invulnerable", (3 : Int))
    { stats := { stats with
        activeEffects := dictInsert stats.activeEffects effect.1 effect.2 }
      grid := setCell g pos.1 pos.2 Sym.empty
      winner := none, msgs := 1, rngUsed := true }
  else if cell = Sym.destructible ∧ "breaker" ∈ dictKeys stats.activeEffects then
    { stats := stats, grid := setCell g pos.1 pos.2 Sym.empty
      winner := none, msgs := 1, rngUsed := false }
  else if cell = Sym.exitDoor then
    if 0 < cfg.numKeys ∧ stats.keys < cfg.numKeys then
      { stats := stats, grid := g, winner := none, msgs := 1, rngUsed := false }
    else
      { stats := stats, grid := g, winner := some pid, msgs := 1, rngUsed := false }
  else
    { stats := stats, grid := g, winner := none, msgs := 0, rngUsed := false }

/-- Source `PixelMazeRunnerEnv._update_active_effects`: decrement every active
effect's duration and drop the ones that reach zero or less. -/
def update_active_effects (stats : Stats) : Stats :=
  { stats with
    activeEffects :=
      (stats.activeEffects.map (fun e => (e.1, e.2 - 1))).filter
        (fun e => decide (0 < e.2)) }

/-- The `for player_id, action in pending_actions.items()` move loop of
`_execute_actions`: the grid is fixed (cleared of players) and the two
positions are threaded in dictionary order. -/
def processMoves (cfg : Config) (g : Grid) (stats0 stats1 : Stats) :
    List (Fin 2 × String) → (Int × Int) × (Int × Int) →
    (Int × Int) × (Int × Int)
  | [], ps => ps
  | (pid, action) :: rest, (p0, p1) =>
    let pos := if pid = 0 then p0 else p1
    let a := pyStrip (mapLower action)
    let newPos : Int × Int :=
      if a = "up" then (pos.1 - 1, pos.2)
      else if a = "down" then (pos.1 + 1, pos.2)
      else if a = "left" then (pos.1, pos.2 - 1)
      else if a = "right" then (pos.1, pos.2 + 1)
      else pos
    let stats := if pid = 0 then stats0 else stats1
    let moved := (a = "up" ∨ a = "down" ∨ a = "left" ∨ a = "right") ∧
      is_valid_move cfg g stats newPos = true
    let p0' := if moved ∧ pid = 0 then newPos else p0
    let p1' := if moved ∧ pid = 1 then newPos else p1
    processMoves cfg g stats0 stats1 rest (p0', p1')

/-- The `game_state` of the maze session, plus observation log, outcome and
rng cursor. -/
structure GState where
  grid : Grid
  pos0 : Int × Int
  pos1 : Int × Int
  stats0 : Stats
  stats1 : Stats
  turnCount : Nat
  winner : Option (Fin 2)
  pending : List (Fin 2 × String)
  roundComplete : Bool
  exitPos : Int × Int
  outcome : Option Core.Outcome
  obs : List (Int × Int)
  rngIdx : Nat

/-- Source `PixelMazeRunnerEnv._execute_actions`: clear player cells, move both
players, process cell interactions in player order, age the active effects,
redraw the players on empty cells, increment `turn_count`, clear the pending
batch and mark the round complete.  Returns the new state and the number of
broadcast messages. -/
def executeActions (cfg : Config) (pick : Nat → Fin 3) (s : GState) :
    GState × Nat :=
  let g0 := setCell (setCell s.grid s.pos0.1 s.pos0.2 Sym.empty)
    s.pos1.1 s.pos1.2 Sym.empty
  let ps := processMoves cfg g0 s.stats0 s.stats1 s.pending (s.pos0, s.pos1)
  let p0 := ps.1
  let p1 := ps.2
  let r0 := process_player_interaction cfg pick s.rngIdx 0 p0 g0 s.stats0
  let rngIdx1 := s.rngIdx + (if r0.rngUsed then 1 else 0)
  let r1 := process_player_interaction cfg pick rngIdx1 1 p1 r0.grid s.stats1
  let rngIdx2 := rngIdx1 + (if r1.rngUsed then 1 else 0)
  let winner2 := (r1.winner.or r0.winner).or s.winner
  let st0 := update_active_effects r0.stats
  let st1 := update_active_effects r1.stats
  let g2 := if cellAt r1.grid p0.1 p0.2 = some Sym.empty
            then setCell r1.grid p0.1 p0.2 Sym.player0 else r1.grid
  let g3 := if cellAt g2 p1.1 p1.2 = some Sym.empty
            then setCell g2 p1.1 p1.2 Sym.player1 else g2
  ({ s with grid := g3, pos0 := p0, pos1 := p1, stats0 := st0, stats1 := st1,
            winner := winner2, turnCount := s.turnCount + 1, pending := [],
            roundComplete := true, rngIdx := rngIdx2 },
   r0.msgs + r1.msgs)

/-- The action strings `step` accepts. -/
def validActions : List String := ["up", "down", "left", "right", "stay"]

/-- Manhattan distance to the exit used by the turn-limit tie-break. -/
def manhattan (p q : Int × Int) : Nat :=
  (p.1 - q.1).natAbs + (p.2 - q.2).natAbs

/-- The state just after `step` has logged a valid action and stored it in
`pending_actions`. -/
def stagedState (currentPlayer : Fin 2) (action : String) (s : GState) : GState :=
  { s with
    obs := s.obs ++ [(((currentPlayer : Nat) : Int), -1)]
    pending := dictInsert s.pending currentPlayer (pyStrip (mapLower action)) }

/-- Source `PixelMazeRunnerEnv.step`: validate and store the action, wait for the
other player if the batch is not full, otherwise resolve the round, broadcast
the interaction messages and apply the end rules: exit winner first, then at
the turn limit the closest-to-exit tie-break (`min` over the distance
dictionary picks player 0 on ties, but the equality check turns ties into a
draw for both players). -/
def step (cfg : Config) (pick : Nat → Fin 3) (currentPlayer : Fin 2)
    (action : String) (s : GState) : GState :=
  let a := pyStrip (mapLower action)
  if a ∉ validActions then
    { s with obs := s.obs ++ [(-1, ((currentPlayer : Nat) : Int))] }
  else
    let s1 := stagedState currentPlayer action s
    if s1.pending.length < 2 then
      { s1 with
        roundComplete := false
        obs := s1.obs ++ [(-1, 1 - ((currentPlayer : Nat) : Int))] }
    else
      let ex := executeActions cfg pick s1
      let s2 := { ex.1 with obs := ex.1.obs ++ List.replicate ex.2 (-1, -1) }
      match s2.winner with
      | some w =>
        { s2 with
          outcome := some (Core.Outcome.mk [(w : Nat)]
            ("Player " ++ toString ((w : Nat) + 1) ++ " reached the exit"))
          obs := s2.obs ++ [(-1, -1)] }
      | none =>
        if cfg.maxTurns ≤ s2.turnCount then
          let d0 := manhattan s2.pos0 s2.exitPos
          let d1 := manhattan s2.pos1 s2.exitPos
          let closest : Fin 2 := if d1 < d0 then 1 else 0
          if d0 = d1 then
            { s2 with
              winner := none
              outcome := some (Core.Outcome.mk [0, 1] "Draw due to turn limit")
              obs := s2.obs ++ [(-1, -1)] }
          else
            { s2 with
              winner := some closest
              outcome := some (Core.Outcome.mk [(closest : Nat)]
                ("Player " ++ toString ((closest : Nat) + 1) ++ " was closest to exit"))
              obs := s2.obs ++ [(-1, -1)] }
        else
          { s2 with obs := s2.obs ++ [(-1, 0), (-1, 1)] }

/-- Folding `step` over a list of `(current_player, action)` submissions. -/
def runSteps (cfg : Config) (pick : Nat → Fin 3) (s : GState) :
    List (Fin 2 × String) → GState
  | [] => s
  | (cp, a) :: rest => runSteps cfg pick (step cfg pick cp a s) rest

end PMR

namespace PMR

theorem executeActions_turnCount_maze (cfg : Config) (pick : Nat → Fin 3)
    (s : GState) : (executeActions cfg pick s).1.turnCount = s.turnCount + 1 := rfl

theorem executeActions_pending_maze (cfg : Config) (pick : Nat → Fin 3)
    (s : GState) : (executeActions cfg pick s).1.pending = [] := rfl

theorem executeActions_outcome_maze (cfg : Config) (pick : Nat → Fin 3)
    (s : GState) : (executeActions cfg pick s).1.outcome = s.outcome := rfl

theorem stagedState_pending_maze (cp : Fin 2) (a : String) (s : GState) :
    (stagedState cp a s).pending = dictInsert s.pending cp (pyStrip (mapLower a)) := rfl

theorem stagedState_turnCount_maze (cp : Fin 2) (a : String) (s : GState) :
    (stagedState cp a s).turnCount = s.turnCount := rfl

/-- The condition under which a `step` call resolves the round. -/
def resolvesRound (currentPlayer : Fin 2) (action : String) (s : GState) : Prop :=
  pyStrip (mapLower action) ∈ validActions ∧
  2 ≤ (dictInsert s.pending currentPlayer (pyStrip (mapLower action))).length

instance (cp : Fin 2) (a : String) (s : GState) :
    Decidable (resolvesRound cp a s) := by
  unfold resolvesRound
  infer_instance

theorem step_turnCount_maze (cfg : Config) (pick : Nat → Fin 3) (cp : Fin 2)
    (action : String) (s : GState) :
    (step cfg pick cp action s).turnCount =
      if resolvesRound cp action s then s.turnCount + 1 else s.turnCount := by
  unfold step resolvesRound
  by_cases hv : pyStrip (mapLower action) ∈ validActions
  · by_cases hl : (dictInsert s.pending cp (pyStrip (mapLower action))).length < 2
    · have hnr : ¬ (pyStrip (mapLower action) ∈ validActions ∧
          2 ≤ (dictInsert s.pending cp (pyStrip (mapLower action))).length) :=
        fun hc => absurd hc.2 (by omega)
      simp [hv, hl, stagedState, hnr]
      rw [if_neg (by omega)]
    · have hr : pyStrip (mapLower action) ∈ validActions ∧
          2 ≤ (dictInsert s.pending cp (pyStrip (mapLower action))).length :=
        ⟨hv, by omega⟩
      rw [if_pos hr]
      simp [hv, hl, stagedState]
      split
      · rfl
      · split_ifs <;> rfl
  · have hnr : ¬ (pyStrip (mapLower action) ∈ validActions ∧
        2 ≤ (dictInsert s.pending cp (pyStrip (mapLower action))).length) :=
      fun hc => absurd hc.1 hv
    simp [hv, hnr]

theorem step_pending_cases_maze (cfg : Config) (pick : Nat → Fin 3) (cp : Fin 2)
    (action : String) (s : GState) :
    (step cfg pick cp action s).pending = s.pending ∨
    (step cfg pick cp action s).pending =
      dictInsert s.pending cp (pyStrip (mapLower action)) ∨
    (step cfg pick cp action s).pending = [] := by
  unfold step
  by_cases hv : pyStrip (mapLower action) ∈ validActions
  · by_cases hl : (dictInsert s.pending cp (pyStrip (mapLower action))).length < 2
    · right; left
      simp [hv, hl, stagedState]
    · right; right
      simp [hv, hl, stagedState]
      split
      · rfl
      · split_ifs <;> rfl
  · left
    simp [hv]

theorem step_resolved_pending_maze (cfg : Config) (pick : Nat → Fin 3) (cp : Fin 2)
    (action : String) (s : GState) (h : resolvesRound cp action s) :
    (step cfg pick cp action s).pending = [] := by
  obtain ⟨hv, hlen⟩ := h
  have hl : ¬ (dictInsert s.pending cp (pyStrip (mapLower action))).length < 2 := by
    omega
  unfold step
  simp [hv, hl, stagedState]
  split
  · rfl
  · split_ifs <;> rfl

theorem step_waiting_eq_maze (cfg : Config) (pick : Nat → Fin 3) (cp : Fin 2)
    (action : String) (s : GState)
    (hv : pyStrip (mapLower action) ∈ validActions)
    (hl : (dictInsert s.pending cp (pyStrip (mapLower action))).length < 2) :
    step cfg pick cp action s =
      { s with
        pending := dictInsert s.pending cp (pyStrip (mapLower action))
        roundComplete := false
        obs := s.obs ++ [(((cp : Nat) : Int), -1), (-1, 1 - ((cp : Nat) : Int))] } := by
  unfold step
  simp [hv, hl, stagedState]

theorem step_keysNodup_maze (cfg : Config) (pick : Nat → Fin 3) (cp : Fin 2)
    (action : String) (s : GState) (h : (dictKeys s.pending).Nodup) :
    (dictKeys (step cfg pick cp action s).pending).Nodup := by
  rcases step_pending_cases_maze cfg pick cp action s with hp | hp | hp <;> rw [hp]
  · exact h
  · exact dictInsert_keys_nodup _ _ _ h
  · simp [dictKeys]

theorem runSteps_keysNodup_maze (cfg : Config) (pick : Nat → Fin 3) (s : GState)
    (acts : List (Fin 2 × String)) (h : (dictKeys s.pending).Nodup) :
    (dictKeys (runSteps cfg pick s acts).pending).Nodup := by
  induction acts generalizing s with
  | nil => exact h
  | cons hd rest ih =>
    obtain ⟨cp, a⟩ := hd
    exact ih (step cfg pick cp a s) (step_keysNodup_maze cfg pick cp a s h)

end PMR

namespace Bomberman

/-- The buffer properties claimed for the simultaneous-action dictionary of a
reachable state: at most one action per player (no duplicate keys), a valid
submission either resolves the round (buffer cleared) or leaves the player's
latest action as their single entry, the round resolves exactly when the
stored batch covers both players, and the buffer is empty right after a
resolution. -/
def pendingInvariants (cfg : Config) (s : GState) : Prop :=
  (dictKeys s.pending).Nodup ∧
  (∀ (cp : Fin 2) (a : String), pyStrip (mapLower a) ∈ validActions →
    ((step cfg cp a s).pending = [] ∨
      dictLookup (step cfg cp a s).pending cp = some (pyStrip (mapLower a)))) ∧
  (∀ (cp : Fin 2) (a : String),
    ((step cfg cp a s).turnCount = s.turnCount + 1 ↔
      (pyStrip (mapLower a) ∈ validActions ∧
        (0 : Fin 2) ∈ dictKeys (dictInsert s.pending cp (pyStrip (mapLower a))) ∧
        (1 : Fin 2) ∈ dictKeys (dictInsert s.pending cp (pyStrip (mapLower a)))))) ∧
  (∀ (cp : Fin 2) (a : String),
    (step cfg cp a s).turnCount = s.turnCount + 1 → (step cfg cp a s).pending = [])

theorem pendingInvariants_of_nodup (cfg : Config) (s : GState)
    (h : (dictKeys s.pending).Nodup) : pendingInvariants cfg s := by
  have hresolve : ∀ (cp : Fin 2) (a : String),
      resolvesRound cp a s ↔
        (pyStrip (mapLower a) ∈ validActions ∧
          (0 : Fin 2) ∈ dictKeys (dictInsert s.pending cp (pyStrip (mapLower a))) ∧
          (1 : Fin 2) ∈ dictKeys (dictInsert s.pending cp (pyStrip (mapLower a)))) := by
    intro cp a
    have hnd := dictInsert_keys_nodup s.pending cp (pyStrip (mapLower a)) h
    have hiff := fin2_two_le_length_iff
      (dictKeys (dictInsert s.pending cp (pyStrip (mapLower a)))) hnd
    have hlen : (dictKeys (dictInsert s.pending cp (pyStrip (mapLower a)))).length =
        (dictInsert s.pending cp (pyStrip (mapLower a))).length := by
      simp [dictKeys]
    unfold resolvesRound
    rw [← hlen]
    exact and_congr_right (fun _ => hiff)
  refine ⟨h, ?_, ?_, ?_⟩
  · intro cp a hv
    by_cases hres : resolvesRound cp a s
    · exact Or.inl (step_resolved_pending cfg cp a s hres)
    · have hl : (dictInsert s.pending cp (pyStrip (mapLower a))).length < 2 := by
        by_contra hc
        exact hres ⟨hv, by omega⟩
      right
      rw [step_waiting_eq cfg cp a s hv hl]
      exact dictLookup_dictInsert_self _ _ _
  · intro cp a
    rw [step_turnCount, ← hresolve cp a]
    by_cases hres : resolvesRound cp a s
    · simp [hres]
    · simp [hres]
  · intro cp a ht
    rw [step_turnCount] at ht
    by_cases hres : resolvesRound cp a s
    · exact step_resolved_pending cfg cp a s hres
    · rw [if_neg hres] at ht
      omega

end Bomberman

namespace PMR

/-- The buffer properties claimed for the simultaneous-action dictionary of a
reachable maze state; see `Bomberman.pendingInvariants`. -/
def pendingInvariants (cfg : Config) (pick : Nat → Fin 3) (s : GState) : Prop :=
  (dictKeys s.pending).Nodup ∧
  (∀ (cp : Fin 2) (a : String), pyStrip (mapLower a) ∈ validActions →
    ((step cfg pick cp a s).pending = [] ∨
      dictLookup (step cfg pick cp a s).pending cp = some (pyStrip (mapLower a)))) ∧
  (∀ (cp : Fin 2) (a : String),
    ((step cfg pick cp a s).turnCount = s.turnCount + 1 ↔
      (pyStrip (mapLower a) ∈ validActions ∧
        (0 : Fin 2) ∈ dictKeys (dictInsert s.pending cp (pyStrip (mapLower a))) ∧
        (1 : Fin 2) ∈ dictKeys (dictInsert s.pending cp (pyStrip (mapLower a)))))) ∧
  (∀ (cp : Fin 2) (a : String),
    (step cfg pick cp a s).turnCount = s.turnCount + 1 →
      (step cfg pick cp a s).pending = [])

theorem pendingInvariants_of_nodup_maze (cfg : Config) (pick : Nat → Fin 3)
    (s : GState) (h : (dictKeys s.pending).Nodup) :
    pendingInvariants cfg pick s := by
  have hresolve : ∀ (cp : Fin 2) (a : String),
      resolvesRound cp a s ↔
        (pyStrip (mapLower a) ∈ validActions ∧
          (0 : Fin 2) ∈ dictKeys (dictInsert s.pending cp (pyStrip (mapLower a))) ∧
          (1 : Fin 2) ∈ dictKeys (dictInsert s.pending cp (pyStrip (mapLower a)))) := by
    intro cp a
    have hnd := dictInsert_keys_nodup s.pending cp (pyStrip (mapLower a)) h
    have hiff := fin2_two_le_length_iff
      (dictKeys (dictInsert s.pending cp (pyStrip (mapLower a)))) hnd
    have hlen : (dictKeys (dictInsert s.pending cp (pyStrip (mapLower a)))).length =
        (dictInsert s.pending cp (pyStrip (mapLower a))).length := by
      simp [dictKeys]
    unfold resolvesRound
    rw [← hlen]
    exact and_congr_right (fun _ => hiff)
  refine ⟨h, ?_, ?_, ?_⟩
  · intro cp a hv
    by_cases hres : resolvesRound cp a s
    · exact Or.inl (step_resolved_pending_maze cfg pick cp a s hres)
    · have hl : (dictInsert s.pending cp (pyStrip (mapLower a))).length < 2 := by
        by_contra hc
        exact hres ⟨hv, by omega⟩
      right
      rw [step_waiting_eq_maze cfg pick cp a s hv hl]
      exact dictLookup_dictInsert_self _ _ _
  · intro cp a
    rw [step_turnCount_maze, ← hresolve cp a]
    by_cases hres : resolvesRound cp a s
    · simp [hres]
    · simp [hres]
  · intro cp a ht
    rw [step_turnCount_maze] at ht
    by_cases hres : resolvesRound cp a s
    · exact step_resolved_pending_maze cfg pick cp a s hres
    · rw [if_neg hres] at ht
      omega

end PMR

/-- C4: In the simultaneous-move games (Bomberman, PixelMazeRunner), after
every `step` call the `pending_actions` mapping holds at most one action per
player (a later submission by the same player overwrites the earlier one),
the batch is resolved by `_execute_actions` exactly when it contains an
action for every active player, and `pending_actions` is empty immediately
after a resolution — for every state reachable by `step` calls from a state
whose buffer is empty (as `reset` leaves it). -/
theorem pending_action_buffer_invariants :
    (∀ (cfg : Bomberman.Config) (s0 : Bomberman.GState), s0.pending = [] →
      ∀ acts : List (Fin 2 × String),
        Bomberman.pendingInvariants cfg (Bomberman.runSteps cfg s0 acts)) ∧
    (∀ (cfg : PMR.Config) (pick : Nat → Fin 3) (s0 : PMR.GState),
      s0.pending = [] →
      ∀ acts : List (Fin 2 × String),
        PMR.pendingInvariants cfg pick (PMR.runSteps cfg pick s0 acts)) := by
  constructor
  · intro cfg s0 h0 acts
    refine Bomberman.pendingInvariants_of_nodup cfg _ ?_
    refine Bomberman.runSteps_keysNodup cfg s0 acts ?_
    simp [h0, dictKeys]
  · intro cfg pick s0 h0 acts
    refine PMR.pendingInvariants_of_nodup_maze cfg pick _ ?_
    refine PMR.runSteps_keysNodup_maze cfg pick s0 acts ?_
    simp [h0, dictKeys]

/-- A fresh Bomberman state (empty buffer), as after `reset`. -/
def bombermanFreshState : Bomberman.GState :=
  { bombermanExampleState with pending := [] }

theorem pending_action_buffer_invariants_witness :
    bombermanFreshState.pending = [] ∧
    (dictKeys (Bomberman.runSteps bombermanExampleCfg bombermanFreshState
      [(0, "up")]).pending).Nodup :=
  ⟨rfl, (pending_action_buffer_invariants.1 bombermanExampleCfg
    bombermanFreshState rfl [(0, "up")]).1⟩

/-- C7: For every episode and every sequence of `step` calls, the turn counter
never decreases: `game_state["turn_count"]` in Bomberman and PixelMazeRunner
increases by exactly 1 each time a round resolves (a valid action completing
the two-player batch) and is otherwise unchanged — it is never decremented or
reset by `step`. -/
theorem turn_counter_monotone :
    (∀ (cfg : Bomberman.Config) (cp : Fin 2) (a : String)
       (s : Bomberman.GState),
      s.turnCount ≤ (Bomberman.step cfg cp a s).turnCount ∧
      ((Bomberman.step cfg cp a s).turnCount = s.turnCount ∨
        (Bomberman.step cfg cp a s).turnCount = s.turnCount + 1) ∧
      ((Bomberman.step cfg cp a s).turnCount = s.turnCount + 1 ↔
        Bomberman.resolvesRound cp a s)) ∧
    (∀ (cfg : PMR.Config) (pick : Nat → Fin 3) (cp : Fin 2) (a : String)
       (s : PMR.GState),
      s.turnCount ≤ (PMR.step cfg pick cp a s).turnCount ∧
      ((PMR.step cfg pick cp a s).turnCount = s.turnCount ∨
        (PMR.step cfg pick cp a s).turnCount = s.turnCount + 1) ∧
      ((PMR.step cfg pick cp a s).turnCount = s.turnCount + 1 ↔
        PMR.resolvesRound cp a s)) := by
  constructor
  · intro cfg cp a s
    rw [Bomberman.step_turnCount]
    by_cases hres : Bomberman.resolvesRound cp a s
    · rw [if_pos hres]
      exact ⟨by omega, Or.inr rfl, by simp [hres]⟩
    · rw [if_neg hres]
      exact ⟨le_refl _, Or.inl rfl,
        ⟨fun h => absurd h (by omega), fun h => absurd h hres⟩⟩
  · intro cfg pick cp a s
    rw [PMR.step_turnCount_maze]
    by_cases hres : PMR.resolvesRound cp a s
    · rw [if_pos hres]
      exact ⟨by omega, Or.inr rfl, by simp [hres]⟩
    · rw [if_neg hres]
      exact ⟨le_refl _, Or.inl rfl,
        ⟨fun h => absurd h (by omega), fun h => absurd h hres⟩⟩

/-- C6: In Bomberman and PixelMazeRunner, a valid action that does not
complete the round (fewer than both players pending after storing it) does
not resolve anything: the resulting state equals the old state with only the
pending action recorded, `round_complete` set to `False`, and the action log
plus a prompt to the other player appended to the observations — in
particular the grid, the player positions and `turn_count` are unchanged. -/
theorem simultaneous_first_action_frame :
    (∀ (cfg : Bomberman.Config) (cp : Fin 2) (a : String)
       (s : Bomberman.GState),
      pyStrip (mapLower a) ∈ Bomberman.validActions →
      (dictInsert s.pending cp (pyStrip (mapLower a))).length < 2 →
      Bomberman.step cfg cp a s =
        { s with
          pending := dictInsert s.pending cp (pyStrip (mapLower a))
          roundComplete := false
          obs := s.obs ++ [(((cp : Nat) : Int), -1), (-1, 1 - ((cp : Nat) : Int))] }) ∧
    (∀ (cfg : PMR.Config) (pick : Nat → Fin 3) (cp : Fin 2) (a : String)
       (s : PMR.GState),
      pyStrip (mapLower a) ∈ PMR.validActions →
      (dictInsert s.pending cp (pyStrip (mapLower a))).length < 2 →
      PMR.step cfg pick cp a s =
        { s with
          pending := dictInsert s.pending cp (pyStrip (mapLower a))
          roundComplete := false
          obs := s.obs ++ [(((cp : Nat) : Int), -1), (-1, 1 - ((cp : Nat) : Int))] }) :=
  ⟨fun cfg cp a s hv hl => Bomberman.step_waiting_eq cfg cp a s hv hl,
   fun cfg pick cp a s hv hl => PMR.step_waiting_eq_maze cfg pick cp a s hv hl⟩

theorem simultaneous_first_action_frame_witness :
    pyStrip (mapLower "up") ∈ Bomberman.validActions ∧
    (dictInsert bombermanFreshState.pending 0 (pyStrip (mapLower "up"))).length < 2 ∧
    (Bomberman.step bombermanExampleCfg 0 "up" bombermanFreshState).grid =
      bombermanFreshState.grid ∧
    (Bomberman.step bombermanExampleCfg 0 "up" bombermanFreshState).turnCount =
      bombermanFreshState.turnCount := by
  have h := simultaneous_first_action_frame.1 bombermanExampleCfg 0 "up"
    bombermanFreshState (by decide) (by decide)
  exact ⟨by decide, by decide, by rw [h], by rw [h]⟩

/-- C5: In PixelMazeRunner, when a resolving step brings `turn_count` to
`max_turns` with no winner declared by the round itself, the tie-break
replaces the default draw: the player whose Manhattan distance to the exit is
strictly smaller is declared sole winner by `set_winners`; equal distances
give `set_winners([0, 1], ...)`, a draw (reward 0 under the spec's reward
model for a full winner set). -/
theorem pmr_turn_limit_tiebreak (cfg : PMR.Config) (pick : Nat → Fin 3)
    (cp : Fin 2) (action : String) (s : PMR.GState)
    (hv : pyStrip (mapLower action) ∈ PMR.validActions)
    (hfull : 2 ≤ (dictInsert s.pending cp (pyStrip (mapLower action))).length)
    (hwin : (PMR.executeActions cfg pick (PMR.stagedState cp action s)).1.winner = none)
    (hlimit : cfg.maxTurns ≤ s.turnCount + 1) :
    (PMR.manhattan (PMR.executeActions cfg pick (PMR.stagedState cp action s)).1.pos0
        (PMR.executeActions cfg pick (PMR.stagedState cp action s)).1.exitPos <
      PMR.manhattan (PMR.executeActions cfg pick (PMR.stagedState cp action s)).1.pos1
        (PMR.executeActions cfg pick (PMR.stagedState cp action s)).1.exitPos →
      (PMR.step cfg pick cp action s).outcome =
        some (Core.Outcome.mk [0]
          ("Player " ++ toString (1 : Nat) ++ " was closest to exit"))) ∧
    (PMR.manhattan (PMR.executeActions cfg pick (PMR.stagedState cp action s)).1.pos1
        (PMR.executeActions cfg pick (PMR.stagedState cp action s)).1.exitPos <
      PMR.manhattan (PMR.executeActions cfg pick (PMR.stagedState cp action s)).1.pos0
        (PMR.executeActions cfg pick (PMR.stagedState cp action s)).1.exitPos →
      (PMR.step cfg pick cp action s).outcome =
        some (Core.Outcome.mk [1]
          ("Player " ++ toString (2 : Nat) ++ " was closest to exit"))) ∧
    (PMR.manhattan (PMR.executeActions cfg pick (PMR.stagedState cp action s)).1.pos0
        (PMR.executeActions cfg pick (PMR.stagedState cp action s)).1.exitPos =
      PMR.manhattan (PMR.executeActions cfg pick (PMR.stagedState cp action s)).1.pos1
        (PMR.executeActions cfg pick (PMR.stagedState cp action s)).1.exitPos →
      (PMR.step cfg pick cp action s).outcome =
        some (Core.Outcome.mk [0, 1] "Draw due to turn limit") ∧
      Core.specRewards 2 [0, 1] 0 = 0 ∧ Core.specRewards 2 [0, 1] 1 = 0) := by
  have hl : ¬ (dictInsert s.pending cp (pyStrip (mapLower action))).length < 2 := by
    omega
  have hmt : cfg.maxTurns ≤
      (PMR.executeActions cfg pick (PMR.stagedState cp action s)).1.turnCount := by
    rw [PMR.executeActions_turnCount_maze, PMR.stagedState_turnCount_maze]
    exact hlimit
  unfold PMR.step
  simp only [PMR.stagedState_pending_maze]
  simp only [hv, hl]
  simp [hwin, hmt]
  refine ⟨?_, ?_, ?_⟩
  · intro hd
    have hne : ¬ (PMR.manhattan (PMR.executeActions cfg pick (PMR.stagedState cp action s)).1.pos0
        (PMR.executeActions cfg pick (PMR.stagedState cp action s)).1.exitPos =
      PMR.manhattan (PMR.executeActions cfg pick (PMR.stagedState cp action s)).1.pos1
        (PMR.executeActions cfg pick (PMR.stagedState cp action s)).1.exitPos) := by
      omega
    have hnlt : ¬ (PMR.manhattan (PMR.executeActions cfg pick (PMR.stagedState cp action s)).1.pos1
        (PMR.executeActions cfg pick (PMR.stagedState cp action s)).1.exitPos <
      PMR.manhattan (PMR.executeActions cfg pick (PMR.stagedState cp action s)).1.pos0
        (PMR.executeActions cfg pick (PMR.stagedState cp action s)).1.exitPos) := by
      omega
    simp [hne, hnlt]
  · intro hd
    have hne : ¬ (PMR.manhattan (PMR.executeActions cfg pick (PMR.stagedState cp action s)).1.pos0
        (PMR.executeActions cfg pick (PMR.stagedState cp action s)).1.exitPos =
      PMR.manhattan (PMR.executeActions cfg pick (PMR.stagedState cp action s)).1.pos1
        (PMR.executeActions cfg pick (PMR.stagedState cp action s)).1.exitPos) := by
      omega
    simp [hne, hd]
  · intro hd
    refine ⟨?_, by simp [Core.specRewards], by simp [Core.specRewards]⟩
    simp [hd]

/-- A concrete two-by-two maze one resolved round away from the turn limit,
with player 1 strictly closer to the exit. -/
def pmrExampleCfg : PMR.Config :=
  { rows := 2, cols := 2, maxTurns := 1, numKeys := 0, numTraps := 0,
    numPowerups := 0, numDestructible := 0 }

def pmrExampleState : PMR.GState :=
  { grid := [[PMR.Sym.player0, PMR.Sym.player1],
             [PMR.Sym.empty, PMR.Sym.empty]]
    pos0 := (0, 0), pos1 := (0, 1),
    stats0 := { keys := 0, powerups := [], trapsHit := 0, activeEffects := [] },
    stats1 := { keys := 0, powerups := [], trapsHit := 0, activeEffects := [] },
    turnCount := 0, winner := none, pending := [(0, "stay")],
    roundComplete := false, exitPos := (1, 1), outcome := none, obs := [],
    rngIdx := 0 }

theorem pmr_turn_limit_tiebreak_witness :
    pmrExampleCfg.maxTurns ≤ pmrExampleState.turnCount + 1 ∧
    (PMR.step pmrExampleCfg (fun _ => 0) 1 "stay" pmrExampleState).outcome =
      some (Core.Outcome.mk [1]
        ("Player " ++ toString (2 : Nat) ++ " was closest to exit")) := by
  have h := pmr_turn_limit_tiebreak pmrExampleCfg (fun _ => 0) 1 "stay"
    pmrExampleState (by decide) (by decide) (by decide) (by decide)
  exact ⟨by decide, h.2.1 (by decide)⟩

/-- C3: Under the RETRY invalid-move policy of ASCIIArtGame, a malformed
action — an artist drawing containing a disallowed symbol, or an incorrect
guess while guesses remain — neither truncates nor terminates the episode:
the session calls `state.step(advance_turn=False)` (the returned flag is
`false`), makes no `set_winners` call (`outcome` stays `none`), and under the
spec's Episode Clock semantics a non-advancing step leaves
`current_player_id` and the truncation flag unchanged, so the same player
retains the turn on the next step. -/
theorem ascii_retry_policy (cfg : ASCIIArt.Config) (pick : Nat → Fin 3)
    (currentPlayer : Nat) (action : String) (s : ASCIIArt.GState)
    (hout : s.outcome = none)
    (hcase : (currentPlayer = s.currentArtist ∧
        ASCIIArt.validate_drawing action s.currentSymbols = false) ∨
      (currentPlayer ≠ s.currentArtist ∧
        mapLower action ≠ mapLower (ASCIIArt.termOf s s.currentRound s.currentArtist) ∧
        1 < s.guessesRemaining)) :
    (ASCIIArt.step cfg pick currentPlayer action s).map Prod.snd = some false ∧
    (ASCIIArt.stepResult cfg pick currentPlayer action s).outcome = none ∧
    (∀ c : Core.Clock, Core.clockAdvance c false = c) := by
  refine ⟨?_, ?_, fun c => rfl⟩ <;>
  · rcases hcase with ⟨hart, hval⟩ | ⟨hart, hg, hrem⟩
    · simp [ASCIIArt.step, ASCIIArt.stepResult, hart, hval, hout]
    · have hg' := hg
      simp [ASCIIArt.termOf] at hg'
      have hg0 : ¬ s.guessesRemaining ≤ 1 := by omega
      simp [ASCIIArt.step, ASCIIArt.stepResult, ASCIIArt.termOf, hart, hg',
        hg0, hout]

theorem ascii_retry_policy_witness :
    asciiExampleState.outcome = none ∧
    (ASCIIArt.step ASCIIArt.defaultConfig (fun _ => 0) 0 "z"
      asciiExampleState).map Prod.snd = some false := by
  have h := ascii_retry_policy ASCIIArt.defaultConfig (fun _ => 0) 0 "z"
    asciiExampleState rfl (Or.inl ⟨by decide, by decide⟩)
  exact ⟨rfl, h.1⟩
